import Mathlib

/-!
Verification of the olmocr batch driver (src/pdf_ocr.py): a script that walks a
source tree, runs an external OCR pipeline per directory into a scratch
workspace, and converts the resulting line-delimited JSON records into
Markdown files.

The Python code is shallowly embedded: filesystem directories become
association lists from entry names to nodes, the external subprocess becomes
an oracle describing its exit status and the workspace contents it leaves
behind, and unhandled Python exceptions become an Except error monad.
Python standard-library primitives that the script calls (json.loads,
str.strip, os.path.basename, os.path.splitext, glob pattern matching on a
POSIX case-sensitive filesystem) are modelled by small Lean functions or by
classifying their outcomes; each is noted at its definition.
-/

set_option autoImplicit false

namespace PdfOcr

/-- A JSON value, as decoded by json.loads. An object is represented as the
resulting Python dict: an association list with unique keys, looked up by
first match. -/
inductive Json where
  | null
  | bool (b : Bool)
  | num (n : Int)
  | str (s : String)
  | arr (elems : List Json)
  | obj (fields : List (String × Json))
deriving Repr

/-- Unhandled Python exceptions that the converter can raise. Only
json.JSONDecodeError is caught by the script; every other exception
propagates and aborts the run. -/
inductive PyErr where
  | attrError
  | typeError
  | isADirectoryError
deriving Repr, DecidableEq

/-- First-match lookup in an association list, modelling Python dict access
on a dict with unique keys. -/
def lookupA {α : Type} : List (String × α) → String → Option α
  | [], _ => none
  | (k, v) :: rest, key => if k = key then some v else lookupA rest key

/-- One line of a results file, classified by what the script observes of it:
line.strip() is empty, json.loads raises json.JSONDecodeError, or json.loads
returns a value. str.strip and json.loads are Python standard library. -/
inductive ParsedLine where
  | blank
  | decodeFailure
  | json (doc : Json)
deriving Repr

/-- Whether one string ends with another, by comparing character lists (the
computation is kept structural so that concrete instances reduce). -/
def strEndsWith (s suffix : String) : Bool :=
  s.toList.reverse.take suffix.toList.length == suffix.toList.reverse

/-- Whether one string starts with another, by comparing character lists. -/
def strStartsWith (s pre : String) : Bool :=
  s.toList.take pre.toList.length == pre.toList

/-- os.path.basename for POSIX paths: everything after the last slash.
Python standard library, used at line 68 of the source. -/
def basename (s : String) : String :=
  String.mk (s.toList.foldl (fun acc ch => if ch = '/' then [] else acc ++ [ch]) [])

/-- Index of the last occurrence of a dot in a character list. -/
def lastDotIdx (cs : List Char) : Option Nat :=
  (cs.foldl
    (fun (acc : Option Nat × Nat) ch =>
      (if ch = '.' then some acc.2 else acc.1, acc.2 + 1))
    (none, 0)).1

/-- The stem part of os.path.splitext applied to a basename (a string with no
slash): split at the last dot, except that a name whose every character
before that dot is itself a dot is not split (so .bashrc keeps its name).
Python standard library, used at line 69 of the source. -/
def splitextStem (b : String) : String :=
  let cs := b.toList
  match lastDotIdx cs with
  | none => b
  | some d => if (cs.take d).all (fun ch => ch = '.') then b else String.mk (cs.take d)

/-- Whether a glob pattern of the shape *.ext matches a file name on a POSIX
filesystem: the match is case-sensitive and a leading-dot (hidden) name is
never matched by the star. Models glob.glob / fnmatch from the Python
standard library. -/
def globMatchExt (ext : String) (name : String) : Bool :=
  strEndsWith name ext && !(strStartsWith name ".")

/-- Lines 66-67 of the source: metadata = doc.get("metadata", {}) followed by
source_file = metadata.get("Source-File", doc.get("id", "unknown")), for a
doc already known to be a dict with the given fields. Calling .get on a
non-dict metadata value raises AttributeError. -/
def sourceId (fields : List (String × Json)) : Except PyErr Json :=
  match (lookupA fields "metadata").getD (Json.obj []) with
  | Json.obj m =>
      .ok ((lookupA m "Source-File").getD ((lookupA fields "id").getD (Json.str "unknown")))
  | _ => .error .attrError

/-- Lines 60-78 of the source, for one successfully decoded value: resolve
the source identifier, take its basename and stem, read the text field, and
produce the Markdown file name and content. Calling doc.get on a non-dict
value raises AttributeError; os.path.basename of a non-string raises
TypeError, as does concatenating a non-string text onto the header. -/
def recordArtifact (doc : Json) : Except PyErr (String × String) :=
  match doc with
  | Json.obj fields => do
      let sf ← sourceId fields
      match sf with
      | Json.str s =>
          let base_name := basename s
          let name_without_ext := splitextStem base_name
          match (lookupA fields "text").getD (Json.str "") with
          | Json.str ocr_text =>
              .ok (name_without_ext ++ ".md", "# " ++ base_name ++ "\n\n" ++ ocr_text)
          | _ => .error .typeError
      | _ => .error .typeError
  | _ => .error .attrError

/-- State of the conversion loop: the destination directory files (name to
content, one entry per name) and the number of JSON decode errors logged. -/
structure ConvState where
  outputs : List (String × String)
  decodeErrors : Nat
deriving Repr

/-- Writing a file with open(..., "w"): any existing entry of that name is
replaced by the new content. -/
def setFile (m : List (String × String)) (name content : String) : List (String × String) :=
  (m.filter (fun p => p.1 ≠ name)) ++ [(name, content)]

/-- Lines 57-78 of the source, the body of the per-line loop: blank lines are
skipped, a json.JSONDecodeError is logged and the line skipped, and a decoded
value is converted to a Markdown artifact and written, any other exception
propagating. -/
def processLine (st : ConvState) (l : ParsedLine) : Except PyErr ConvState :=
  match l with
  | .blank => .ok st
  | .decodeFailure => .ok { st with decodeErrors := st.decodeErrors + 1 }
  | .json doc => do
      let (name, content) ← recordArtifact doc
      .ok { st with outputs := setFile st.outputs name content }

/-- Processing all lines of one results file in order. -/
def processFileLines (st : ConvState) (lines : List ParsedLine) : Except PyErr ConvState :=
  lines.foldlM processLine st

/-- A node of the modelled filesystem: a regular file, with its content given
as the classification of its lines, or a directory of named entries. -/
inductive FNode where
  | file (lines : List ParsedLine)
  | dir (entries : List (String × FNode))
deriving Repr

/-- Opening one results-directory entry and processing its lines; opening a
directory raises IsADirectoryError. -/
def processEntry (st : ConvState) (p : String × FNode) : Except PyErr ConvState :=
  match p.2 with
  | .file lines => processFileLines st lines
  | .dir _ => .error .isADirectoryError

/-- The loop of lines 55-78 of the source starting from a given state: the
entries of the results directory matching *.jsonl are processed in order. -/
def convertFilesFrom (listing : List (String × FNode)) (st : ConvState) :
    Except PyErr ConvState :=
  (listing.filter (fun p => globMatchExt ".jsonl" p.1)).foldlM processEntry st

/-- Lines 42-78 of the source (convert_jsonl_to_markdown): select the entries
of the results directory matching *.jsonl, and process each selected file in
turn. The output directory starts with the files in dest0. An empty
selection only logs a notice. -/
def convert_jsonl_to_markdown (listing : List (String × FNode))
    (dest0 : List (String × String)) : Except PyErr ConvState :=
  convertFilesFrom listing { outputs := dest0, decodeErrors := 0 }

/-- Lines 87-92 of the source: the files of a directory selected for
processing, by four glob calls with patterns *.pdf, *.png, *.jpg, *.jpeg in
that order. Matching is case-sensitive on a POSIX filesystem. The argument
is the list of file names directly inside the directory. -/
def listEligibleFiles (files : List String) : List String :=
  files.filter (globMatchExt ".pdf")
    ++ files.filter (globMatchExt ".png")
    ++ files.filter (globMatchExt ".jpg")
    ++ files.filter (globMatchExt ".jpeg")

/-- String lowercasing, modelling str.lower on the ASCII file names the
script deals with. Python standard library, used at line 131 of the source. -/
def strLower (s : String) : String :=
  String.mk (s.toList.map Char.toLower)

/-- Lines 130-131 of the source, the eligibility test of main: some file of
the directory, lowercased, ends with .pdf, .png, .jpg or .jpeg. Unlike the
glob calls of process_directory, this test is case-insensitive. -/
def hasEligibleFile (files : List String) : Bool :=
  files.any (fun file =>
    strEndsWith (strLower file) ".pdf" || strEndsWith (strLower file) ".png" ||
    strEndsWith (strLower file) ".jpg" || strEndsWith (strLower file) ".jpeg")

/-- The state of the workspace directory: none when the path does not exist,
otherwise the entries of the directory. The script only ever treats this
path as a directory. -/
def Ws : Type := Option (List (String × FNode))

/-- Lines 13-20 of the source (clear_workspace): delete the workspace tree if
it exists, recreate the workspace directory, then create an empty results
subdirectory inside it. -/
def clear_workspace (ws : Ws) : Ws :=
  let afterRm : Ws := if ws.isSome then none else ws
  let afterMk : List (String × FNode) := match afterRm with
    | none => []
    | some entries => entries
  some (match lookupA afterMk "results" with
    | some _ => afterMk
    | none => afterMk ++ [("results", FNode.dir [])])

/-- Lines 118-121 of the source: if the results subdirectory exists, delete
it and recreate it empty; otherwise do nothing. -/
def purgeResults (ws : Ws) : Ws :=
  match ws with
  | none => none
  | some entries =>
      match lookupA entries "results" with
      | none => some entries
      | some _ =>
          some (entries.map (fun p => if p.1 = "results" then (p.1, FNode.dir []) else p))

/-- The entries of the results subdirectory of the workspace, as seen by the
glob call of convert_jsonl_to_markdown: empty when the workspace or the
results subdirectory does not exist (glob on a missing directory returns no
matches). -/
def resultsListing (ws : Ws) : List (String × FNode) :=
  match ws with
  | none => []
  | some entries =>
      match lookupA entries "results" with
      | some (FNode.dir es) => es
      | _ => []

/-- A directory of the walk: its path relative to the source root, and the
names of the files directly inside it. -/
structure SrcDir where
  relPath : String
  files : List String

/-- What one invocation of the external OCR pipeline does (lines 22-40 of
the source): ok is true iff the subprocess exits with status zero, and
wsAfter is the content of the workspace directory once the subprocess has
returned, the pipeline being free to write anything there. -/
structure OcrOutcome where
  ok : Bool
  wsAfter : List (String × FNode)

/-- The mutable state the batch driver acts on: the workspace directory and
the destination tree, the latter a map from relative paths to the files of
the corresponding created destination directory. -/
structure BatchState where
  ws : Ws
  destDirs : List (String × List (String × String))

/-- os.makedirs(dest_dir, exist_ok=True) on the destination tree: create the
entry for the relative path if absent. -/
def ensureDest (dd : List (String × List (String × String))) (rel : String) :
    List (String × List (String × String)) :=
  match lookupA dd rel with
  | some _ => dd
  | none => dd ++ [(rel, [])]

/-- Replace the files of one destination directory. -/
def setDest (dd : List (String × List (String × String))) (rel : String)
    (files : List (String × String)) : List (String × List (String × String)) :=
  dd.map (fun p => if p.1 = rel then (p.1, files) else p)

/-- Lines 81-121 of the source (process_directory), with the external
subprocess replaced by its outcome o. Collect eligible files by the four
glob calls; if none, return. Otherwise clear the workspace, run the
pipeline (the workspace then holds o.wsAfter); on nonzero exit return.
Otherwise create the destination directory for the relative path, convert
the results into it, and purge the results subdirectory. Besides the final
state, the list of workspace states observed at the moment the pipeline
invocation begins is returned (empty when no invocation happens). -/
def process_directory (o : OcrOutcome) (st : BatchState) (d : SrcDir) :
    Except PyErr (BatchState × List Ws) :=
  let pdf_files := listEligibleFiles d.files
  if pdf_files.isEmpty then .ok (st, [])
  else
    let wsAtInvocation := clear_workspace st.ws
    let wsAfterRun : Ws := some o.wsAfter
    if !o.ok then .ok ({ st with ws := wsAfterRun }, [wsAtInvocation])
    else do
      let dd1 := ensureDest st.destDirs d.relPath
      let res ← convert_jsonl_to_markdown (resultsListing wsAfterRun)
        ((lookupA dd1 d.relPath).getD [])
      .ok ({ ws := purgeResults wsAfterRun, destDirs := setDest dd1 d.relPath res.outputs },
        [wsAtInvocation])

/-- Lines 123-134 of the source (main): walk the source tree, and for each
directory containing at least one file whose lowercased name has an eligible
extension, process it; other directories are skipped with a notice. The walk
is given as the list of directories paired with the outcome the external
pipeline would have in that directory. The trace of workspace states at
pipeline invocations is accumulated. -/
def runMain (units : List (SrcDir × OcrOutcome)) (st : BatchState) :
    Except PyErr (BatchState × List Ws) :=
  match units with
  | [] => .ok (st, [])
  | (d, o) :: rest =>
      if hasEligibleFile d.files then do
        let (st1, tr1) ← process_directory o st d
        let (st2, tr2) ← runMain rest st1
        .ok (st2, tr1 ++ tr2)
      else runMain rest st

/-- Whether a JSON value is an object. -/
def Json.isObj : Json → Bool
  | Json.obj _ => true
  | _ => false

/-- Modelled from the spec: the source-identifier fallback chain exactly as
the specification words it — the value at key Source-File of the metadata
object when that field is present, else the top-level id field when present,
else the literal string unknown. Stated for comparison with sourceId, the
chain the code implements. -/
def specSourceId (fields : List (String × Json)) : Json :=
  match lookupA fields "metadata" with
  | some (Json.obj m) =>
      match lookupA m "Source-File" with
      | some v => v
      | none => (lookupA fields "id").getD (Json.str "unknown")
  | _ => (lookupA fields "id").getD (Json.str "unknown")

/-!
## Basic lemmas
-/

theorem clear_workspace_eq (ws : Ws) :
    clear_workspace ws = some [("results", FNode.dir [])] := by
  cases ws <;> rfl

theorem lookupA_map_replace {k : String} {v : FNode} (entries : List (String × FNode))
    (x : FNode) (h : lookupA entries k = some v) :
    lookupA (entries.map (fun p => if p.1 = k then (p.1, x) else p)) k = some x := by
  induction entries with
  | nil => simp [lookupA] at h
  | cons e rest ih =>
      obtain ⟨a, b⟩ := e
      by_cases he : a = k
      · subst he
        show lookupA ((if a = a then (a, x) else (a, b)) ::
          rest.map (fun p => if p.1 = a then (p.1, x) else p)) a = some x
        rw [if_pos rfl]
        show (if a = a then some x else
          lookupA (rest.map (fun p => if p.1 = a then (p.1, x) else p)) a) = some x
        rw [if_pos rfl]
      · simp only [lookupA, if_neg he] at h
        show lookupA ((if a = k then (a, x) else (a, b)) ::
          rest.map (fun p => if p.1 = k then (p.1, x) else p)) k = some x
        rw [if_neg he]
        show (if a = k then some b else
          lookupA (rest.map (fun p => if p.1 = k then (p.1, x) else p)) k) = some x
        rw [if_neg he]
        exact ih h

@[simp] theorem ok_bind {α β : Type} (a : α) (f : α → Except PyErr β) :
    (Except.ok a : Except PyErr α) >>= f = f a := rfl

@[simp] theorem error_bind {α β : Type} (e : PyErr) (f : α → Except PyErr β) :
    (Except.error e : Except PyErr α) >>= f = Except.error e := rfl

theorem process_directory_empty (o : OcrOutcome) (st : BatchState) (d : SrcDir)
    (h : (listEligibleFiles d.files).isEmpty = true) :
    process_directory o st d = .ok (st, []) := by
  unfold process_directory
  simp [h]

theorem process_directory_failure (o : OcrOutcome) (st : BatchState) (d : SrcDir)
    (hne : (listEligibleFiles d.files).isEmpty = false) (hfail : o.ok = false) :
    process_directory o st d =
      .ok ({ st with ws := some o.wsAfter }, [clear_workspace st.ws]) := by
  unfold process_directory
  simp [hne, hfail]

theorem process_directory_success (o : OcrOutcome) (st : BatchState) (d : SrcDir)
    (res : ConvState)
    (hne : (listEligibleFiles d.files).isEmpty = false) (hok : o.ok = true)
    (hconv : convert_jsonl_to_markdown (resultsListing (some o.wsAfter))
      ((lookupA (ensureDest st.destDirs d.relPath) d.relPath).getD []) = .ok res) :
    process_directory o st d =
      .ok ({ ws := purgeResults (some o.wsAfter),
             destDirs := setDest (ensureDest st.destDirs d.relPath) d.relPath res.outputs },
        [clear_workspace st.ws]) := by
  unfold process_directory
  simp [hne, hok, hconv]

theorem process_directory_convert_error (o : OcrOutcome) (st : BatchState) (d : SrcDir)
    (e : PyErr)
    (hne : (listEligibleFiles d.files).isEmpty = false) (hok : o.ok = true)
    (hconv : convert_jsonl_to_markdown (resultsListing (some o.wsAfter))
      ((lookupA (ensureDest st.destDirs d.relPath) d.relPath).getD []) = .error e) :
    process_directory o st d = .error e := by
  unfold process_directory
  simp [hne, hok, hconv]

theorem process_directory_trace (o : OcrOutcome) (st : BatchState) (d : SrcDir)
    (r : BatchState × List Ws) (h : process_directory o st d = .ok r) :
    List.Forall (fun ws => ws = some [("results", FNode.dir [])]) r.2 := by
  by_cases hne : (listEligibleFiles d.files).isEmpty = true
  · rw [process_directory_empty o st d hne] at h
    injection h with h2
    subst h2
    trivial
  · rw [Bool.not_eq_true] at hne
    by_cases hok : o.ok = true
    · cases hconv : convert_jsonl_to_markdown (resultsListing (some o.wsAfter))
        ((lookupA (ensureDest st.destDirs d.relPath) d.relPath).getD []) with
      | error e =>
          rw [process_directory_convert_error o st d e hne hok hconv] at h
          cases h
      | ok res =>
          rw [process_directory_success o st d res hne hok hconv] at h
          injection h with h2
          subst h2
          simp [List.Forall, clear_workspace_eq]
    · rw [Bool.not_eq_true] at hok
      rw [process_directory_failure o st d hne hok] at h
      injection h with h2
      subst h2
      simp [List.Forall, clear_workspace_eq]

theorem runMain_cons_eligible (d : SrcDir) (o : OcrOutcome)
    (rest : List (SrcDir × OcrOutcome)) (st : BatchState)
    (hel : hasEligibleFile d.files = true) :
    runMain ((d, o) :: rest) st = (do
      let r1 ← process_directory o st d
      let r2 ← runMain rest r1.1
      Except.ok (r2.1, r1.2 ++ r2.2)) := by
  conv_lhs => unfold runMain
  rw [if_pos hel]

theorem resultsListing_purge (entries rs : List (String × FNode))
    (h : lookupA entries "results" = some (FNode.dir rs)) :
    resultsListing (purgeResults (some entries)) = [] := by
  have hp : purgeResults (some entries) =
      some (entries.map (fun p => if p.1 = "results" then (p.1, FNode.dir []) else p)) := by
    show (match lookupA entries "results" with
      | none => some entries
      | some _ =>
          some (entries.map (fun p => if p.1 = "results" then (p.1, FNode.dir []) else p))) =
      some (entries.map (fun p => if p.1 = "results" then (p.1, FNode.dir []) else p))
    rw [h]
  rw [hp]
  show (match lookupA (entries.map (fun p => if p.1 = "results" then (p.1, FNode.dir []) else p))
      "results" with
    | some (FNode.dir es) => es
    | _ => []) = []
  rw [lookupA_map_replace entries (FNode.dir []) h]

/-!
## Claim theorems
-/

/-- C1: a results directory holding exactly one JSONL file whose single line
is the object with id doc1 and text hello converts, into an empty
destination, to exactly one file doc1.md whose content is the header line
with the basename, a blank line, and the text verbatim. -/
theorem c1_round_trip :
    convert_jsonl_to_markdown
      [("output.jsonl",
        FNode.file [ParsedLine.json (Json.obj [("id", Json.str "doc1"), ("text", Json.str "hello")])])]
      [] =
    .ok { outputs := [("doc1.md", "# doc1\n\nhello")], decodeErrors := 0 } := rfl

/-- C2 (amended): for every successfully parsed record whose metadata field,
when present, is a JSON object, the source identifier is resolved by the
fallback chain — metadata Source-File when present, taking precedence over
any id field, else the top-level id field, else the string unknown — and in
particular a record with Source-File /a/b/report.pdf yields report.md with
header # report.pdf whatever its id field holds. -/
theorem c2_fallback_chain (fields : List (String × Json))
    (hMeta : lookupA fields "metadata" = none ∨
      ∃ m, lookupA fields "metadata" = some (Json.obj m)) :
    sourceId fields = .ok (specSourceId fields) ∧
    (∀ idv : Json, ∀ text : String,
      recordArtifact (Json.obj
        [("id", idv), ("text", Json.str text),
         ("metadata", Json.obj [("Source-File", Json.str "/a/b/report.pdf")])]) =
      .ok ("report.md", "# report.pdf\n\n" ++ text)) := by
  constructor
  · unfold sourceId specSourceId
    rcases hMeta with h | ⟨m, h⟩
    · rw [h]
      rfl
    · rw [h]
      show Except.ok ((lookupA m "Source-File").getD
          ((lookupA fields "id").getD (Json.str "unknown"))) =
        Except.ok (match lookupA m "Source-File" with
          | some v => v
          | none => (lookupA fields "id").getD (Json.str "unknown"))
      cases lookupA m "Source-File" <;> rfl
  · intro idv text
    rfl

/-- C2 counterexample: the record whose metadata field is the number 5 and
whose id is x parses successfully and the claimed fallback chain resolves
its identifier to x, but the code instead raises an unhandled AttributeError
when it calls .get on the non-dict metadata value. -/
theorem c2_counterexample :
    sourceId [("metadata", Json.num 5), ("id", Json.str "x")] = .error PyErr.attrError ∧
    specSourceId [("metadata", Json.num 5), ("id", Json.str "x")] = Json.str "x" ∧
    recordArtifact (Json.obj [("metadata", Json.num 5), ("id", Json.str "x")]) =
      .error PyErr.attrError :=
  ⟨rfl, rfl, rfl⟩

/-- C2 witness: the theorem applied to a record whose metadata holds a
Source-File entry, and its artifact conjunct instantiated at a concrete id
and text. -/
theorem c2_fallback_chain_witness :
    sourceId [("metadata", Json.obj [("Source-File", Json.str "/a/b/report.pdf")])] =
      .ok (specSourceId [("metadata", Json.obj [("Source-File", Json.str "/a/b/report.pdf")])]) ∧
    recordArtifact (Json.obj
      [("id", Json.str "zzz"), ("text", Json.str "T"),
       ("metadata", Json.obj [("Source-File", Json.str "/a/b/report.pdf")])]) =
      .ok ("report.md", "# report.pdf\n\nT") :=
  ⟨(c2_fallback_chain [("metadata", Json.obj [("Source-File", Json.str "/a/b/report.pdf")])]
      (Or.inr ⟨[("Source-File", Json.str "/a/b/report.pdf")], rfl⟩)).1,
   (c2_fallback_chain [("metadata", Json.obj [("Source-File", Json.str "/a/b/report.pdf")])]
      (Or.inr ⟨[("Source-File", Json.str "/a/b/report.pdf")], rfl⟩)).2 (Json.str "zzz") "T"⟩

/-- C3: the selection the claim describes is case-insensitive, but the four
glob calls of process_directory are case-sensitive on a POSIX filesystem:
X.PDF and X.Jpeg are selected by neither pattern, even though the
eligibility test of main — the code of the same walk — accepts both and so
sends the directory to process_directory, which then finds nothing. Only
exact lowercase extensions are selected. -/
theorem c3_case_sensitive_glob :
    listEligibleFiles ["X.PDF"] = [] ∧ hasEligibleFile ["X.PDF"] = true ∧
    listEligibleFiles ["X.Jpeg"] = [] ∧ hasEligibleFile ["X.Jpeg"] = true ∧
    listEligibleFiles ["report.pdf", "notes.txt"] = ["report.pdf"] :=
  ⟨rfl, rfl, rfl, rfl, rfl⟩

/-- C4: a results file with one valid object line and one unparseable line,
in either order, records exactly one decode error, still produces the
artifact of the valid record, and the conversion continues with the
remaining results files from exactly that state. -/
theorem c4_malformed_line_skipped (doc : Json) (name content fname : String)
    (lines : List ParsedLine) (st : ConvState)
    (hArt : recordArtifact doc = .ok (name, content))
    (hLines : lines = [ParsedLine.decodeFailure, ParsedLine.json doc] ∨
      lines = [ParsedLine.json doc, ParsedLine.decodeFailure]) :
    processFileLines st lines =
      .ok { outputs := setFile st.outputs name content,
            decodeErrors := st.decodeErrors + 1 } ∧
    (∀ rest : List (String × FNode),
      globMatchExt ".jsonl" fname = true →
      convertFilesFrom ((fname, FNode.file lines) :: rest) st =
        convertFilesFrom rest
          { outputs := setFile st.outputs name content,
            decodeErrors := st.decodeErrors + 1 }) := by
  have hmain : processFileLines st lines =
      .ok { outputs := setFile st.outputs name content,
            decodeErrors := st.decodeErrors + 1 } := by
    rcases hLines with h | h <;> subst h <;>
      (simp only [processFileLines, List.foldlM, processLine, hArt]; rfl)
  refine ⟨hmain, fun rest hglob => ?_⟩
  unfold convertFilesFrom
  simp only [List.filter_cons, hglob, if_pos, List.foldlM, processEntry, hmain]
  rfl

/-- C4 witness: the theorem at a concrete file whose first line is
unparseable and whose second line is the doc1 record, starting from an empty
destination. -/
theorem c4_malformed_line_skipped_witness :
    processFileLines { outputs := [], decodeErrors := 0 }
      [ParsedLine.decodeFailure,
       ParsedLine.json (Json.obj [("id", Json.str "doc1"), ("text", Json.str "hello")])] =
      .ok { outputs := setFile [] "doc1.md" "# doc1\n\nhello", decodeErrors := 0 + 1 } :=
  (c4_malformed_line_skipped
    (Json.obj [("id", Json.str "doc1"), ("text", Json.str "hello")])
    "doc1.md" "# doc1\n\nhello" "output.jsonl" _
    { outputs := [], decodeErrors := 0 } rfl (Or.inl rfl)).1

/-- C5: when two records of one file resolve to the same Markdown name, the
conversion ends with exactly one entry of that name in the destination, and
its content comes from the later record alone. -/
theorem c5_last_write_wins (doc1 doc2 : Json) (n c1 c2 : String) (st : ConvState)
    (h1 : recordArtifact doc1 = .ok (n, c1))
    (h2 : recordArtifact doc2 = .ok (n, c2)) :
    processFileLines st [ParsedLine.json doc1, ParsedLine.json doc2] =
      .ok { outputs := setFile (setFile st.outputs n c1) n c2,
            decodeErrors := st.decodeErrors } ∧
    (setFile (setFile st.outputs n c1) n c2).filter (fun p => p.1 == n) = [(n, c2)] := by
  constructor
  · simp only [processFileLines, List.foldlM, processLine, h1, h2]
    rfl
  · unfold setFile
    simp [List.filter_append, List.filter_filter]

/-- C5 witness: two concrete records with the same id doc1 but different
texts, starting from an empty destination. -/
theorem c5_last_write_wins_witness :
    processFileLines { outputs := [], decodeErrors := 0 }
      [ParsedLine.json (Json.obj [("id", Json.str "doc1"), ("text", Json.str "first")]),
       ParsedLine.json (Json.obj [("id", Json.str "doc1"), ("text", Json.str "second")])] =
      .ok { outputs := setFile (setFile [] "doc1.md" "# doc1\n\nfirst") "doc1.md" "# doc1\n\nsecond",
            decodeErrors := 0 } :=
  (c5_last_write_wins
    (Json.obj [("id", Json.str "doc1"), ("text", Json.str "first")])
    (Json.obj [("id", Json.str "doc1"), ("text", Json.str "second")])
    "doc1.md" "# doc1\n\nfirst" "# doc1\n\nsecond"
    { outputs := [], decodeErrors := 0 } rfl rfl).1

/-- C9: only json.JSONDecodeError is handled per line — a line that decodes
to a non-object value raises AttributeError at doc.get, which aborts the
rest of the file and all remaining results files of the run. -/
theorem c9_non_object_aborts (j : Json) (st : ConvState) (restLines : List ParsedLine)
    (fname : String) (restFiles : List (String × FNode))
    (hj : j.isObj = false) (hglob : globMatchExt ".jsonl" fname = true) :
    processLine st (.json j) = .error PyErr.attrError ∧
    processFileLines st (.json j :: restLines) = .error PyErr.attrError ∧
    convertFilesFrom ((fname, FNode.file (.json j :: restLines)) :: restFiles) st =
      .error PyErr.attrError := by
  have hart : recordArtifact j = .error PyErr.attrError := by
    cases j <;> first
      | rfl
      | simp [Json.isObj] at hj
  have hline : processLine st (.json j) = .error PyErr.attrError := by
    simp only [processLine, hart]
    rfl
  have hfile : processFileLines st (.json j :: restLines) = .error PyErr.attrError := by
    simp only [processFileLines, List.foldlM, hline]
    rfl
  refine ⟨hline, hfile, ?_⟩
  unfold convertFilesFrom
  simp only [List.filter_cons, hglob, if_pos, List.foldlM, processEntry, hfile]
  rfl

/-- C9 witness: the theorem at the concrete line holding the JSON array
value, in a file named output.jsonl, with nothing after it. -/
theorem c9_non_object_aborts_witness :
    processLine { outputs := [], decodeErrors := 0 }
      (ParsedLine.json (Json.arr [])) = .error PyErr.attrError :=
  (c9_non_object_aborts (Json.arr []) { outputs := [], decodeErrors := 0 }
    [] "output.jsonl" [] rfl rfl).1

/-- C6 (amended): in every reachable run of the recursive batch loop, at the
moment a pipeline invocation begins the workspace directory exists and
contains exactly one entry — the results subdirectory, which exists and is
empty. -/
theorem c6_workspace_clean_at_invocation (units : List (SrcDir × OcrOutcome))
    (st : BatchState) (r : BatchState × List Ws)
    (h : runMain units st = .ok r) :
    List.Forall (fun ws => ws = some [("results", FNode.dir [])]) r.2 := by
  induction units generalizing st r with
  | nil =>
      unfold runMain at h
      injection h with h2
      subst h2
      trivial
  | cons u rest ih =>
      obtain ⟨d, o⟩ := u
      unfold runMain at h
      by_cases hel : hasEligibleFile d.files = true
      · rw [if_pos hel] at h
        cases hp : process_directory o st d with
        | error e =>
            rw [hp] at h
            simp only [error_bind] at h
            cases h
        | ok r1 =>
            obtain ⟨st1, tr1⟩ := r1
            rw [hp] at h
            simp only [ok_bind] at h
            cases hr : runMain rest st1 with
            | error e =>
                rw [hr] at h
                simp only [error_bind] at h
                cases h
            | ok r2 =>
                obtain ⟨st2, tr2⟩ := r2
                rw [hr] at h
                simp only [ok_bind] at h
                injection h with h2
                subst h2
                rw [List.forall_iff_forall_mem]
                intro x hx
                rcases List.mem_append.mp hx with hx1 | hx2
                · exact (List.forall_iff_forall_mem.mp
                    (process_directory_trace o st d (st1, tr1) hp)) x hx1
                · exact (List.forall_iff_forall_mem.mp
                    (ih st1 (st2, tr2) hr)) x hx2
      · rw [if_neg hel] at h
        exact ih st r h


/-- C6 counterexample: on a concrete one-directory run, the workspace state
observed at the pipeline invocation holds the results entry, so the
workspace directory is not itself empty as the claim states — it contains
exactly the empty results subdirectory. -/
theorem c6_workspace_not_empty_counterexample :
    runMain
      [({ relPath := ".", files := ["a.pdf"] },
        { ok := true, wsAfter := [("results", FNode.dir [])] })]
      { ws := none, destDirs := [] } =
      .ok ({ ws := some [("results", FNode.dir [])], destDirs := [(".", [])] },
        [some [("results", FNode.dir [])]]) ∧
    [(("results" : String), FNode.dir [])] ≠ ([] : List (String × FNode)) := by
  refine ⟨rfl, ?_⟩
  intro hcontra
  cases hcontra

/-- C6 witness: the amended invariant evaluated on the concrete
one-directory run. -/
theorem c6_workspace_clean_at_invocation_witness :
    List.Forall (fun ws => ws = some [("results", FNode.dir [])])
      [some [("results", FNode.dir [])]] :=
  c6_workspace_clean_at_invocation
    [({ relPath := ".", files := ["a.pdf"] },
      { ok := true, wsAfter := [("results", FNode.dir [])] })]
    { ws := none, destDirs := [] }
    ({ ws := some [("results", FNode.dir [])], destDirs := [(".", [])] },
      [some [("results", FNode.dir [])]])
    rfl

/-- C7: when the pipeline invocation of a walked directory exits nonzero,
process_directory returns with the destination tree untouched — no
destination subdirectory is created and no artifact written for it — and
the walk continues through the remaining directories exactly as it would
have from that state. -/
theorem c7_pipeline_failure_isolation (d : SrcDir) (o : OcrOutcome) (st : BatchState)
    (rest : List (SrcDir × OcrOutcome))
    (hne : (listEligibleFiles d.files).isEmpty = false)
    (hel : hasEligibleFile d.files = true)
    (hfail : o.ok = false) :
    process_directory o st d =
      .ok ({ st with ws := some o.wsAfter }, [clear_workspace st.ws]) ∧
    ({ st with ws := some o.wsAfter } : BatchState).destDirs = st.destDirs ∧
    runMain ((d, o) :: rest) st =
      Except.map (fun r => (r.1, clear_workspace st.ws :: r.2))
        (runMain rest { st with ws := some o.wsAfter }) := by
  refine ⟨process_directory_failure o st d hne hfail, rfl, ?_⟩
  rw [runMain_cons_eligible d o rest st hel,
    process_directory_failure o st d hne hfail]
  show (do
      let r2 ← runMain rest { st with ws := some o.wsAfter }
      Except.ok (r2.1, [clear_workspace st.ws] ++ r2.2)) =
    Except.map (fun r => (r.1, clear_workspace st.ws :: r.2))
      (runMain rest { st with ws := some o.wsAfter })
  cases hr : runMain rest { st with ws := some o.wsAfter } with
  | error e => rfl
  | ok r2 => rfl

/-- C7 witness: a concrete failing invocation followed by an empty rest of
the walk. -/
theorem c7_pipeline_failure_isolation_witness :
    process_directory { ok := false, wsAfter := [("junk", FNode.dir [])] }
      { ws := none, destDirs := [] } { relPath := ".", files := ["a.pdf"] } =
      .ok ({ ws := some [("junk", FNode.dir [])], destDirs := [] },
        [clear_workspace none]) :=
  (c7_pipeline_failure_isolation { relPath := ".", files := ["a.pdf"] }
    { ok := false, wsAfter := [("junk", FNode.dir [])] }
    { ws := none, destDirs := [] } [] rfl rfl rfl).1

/-- C10: after a failed pipeline invocation process_directory returns at
once, leaving the workspace exactly as the failed run left it — whatever
those leavings are, the results subdirectory is not purged; the purge runs
only on the success path, after conversion, where every state it returns
has the results subdirectory deleted and recreated, hence empty whenever
the failed-run leavings held one. -/
theorem c10_results_purge_only_on_success (d : SrcDir) (o : OcrOutcome) (st : BatchState)
    (hne : (listEligibleFiles d.files).isEmpty = false) :
    (o.ok = false →
      process_directory o st d =
        .ok ({ st with ws := some o.wsAfter }, [clear_workspace st.ws])) ∧
    (o.ok = true →
      ∀ st2 : BatchState, ∀ tr : List Ws,
        process_directory o st d = .ok (st2, tr) →
          st2.ws = purgeResults (some o.wsAfter) ∧
          ∀ rs : List (String × FNode),
            lookupA o.wsAfter "results" = some (FNode.dir rs) →
              resultsListing st2.ws = []) := by
  refine ⟨fun hfail => process_directory_failure o st d hne hfail,
    fun hok st2 tr h => ?_⟩
  cases hconv : convert_jsonl_to_markdown (resultsListing (some o.wsAfter))
      ((lookupA (ensureDest st.destDirs d.relPath) d.relPath).getD []) with
  | error e =>
      rw [process_directory_convert_error o st d e hne hok hconv] at h
      cases h
  | ok res =>
      rw [process_directory_success o st d res hne hok hconv] at h
      injection h with h2
      have h3 : _ = st2 := congrArg Prod.fst h2
      refine ⟨?_, fun rs hres => ?_⟩
      · rw [← h3]
      · rw [← h3]
        exact resultsListing_purge o.wsAfter rs hres

/-- C10 witness: a concrete failing invocation whose workspace leavings keep
an untouched results subdirectory. -/
theorem c10_results_purge_only_on_success_witness :
    process_directory
      { ok := false,
        wsAfter := [("results", FNode.dir [("out.jsonl", FNode.file [])])] }
      { ws := none, destDirs := [] } { relPath := ".", files := ["a.pdf"] } =
      .ok ({ ws := some [("results", FNode.dir [("out.jsonl", FNode.file [])])],
             destDirs := [] },
        [clear_workspace none]) :=
  (c10_results_purge_only_on_success { relPath := ".", files := ["a.pdf"] }
    { ok := false, wsAfter := [("results", FNode.dir [("out.jsonl", FNode.file [])])] }
    { ws := none, destDirs := [] } rfl).1 rfl

/-- C8: clear_workspace is idempotent — from every starting state of the
workspace path, running it twice yields exactly the state running it once
yields. -/
theorem c8_clear_workspace_idempotent (ws : Ws) :
    clear_workspace (clear_workspace ws) = clear_workspace ws := by
  cases ws <;> rfl

end PdfOcr
